import Mathlib

/-!
Shallow embedding of `handler.go` from the `dolista-safado` repository: a
Telegram webhook handler that routes text commands, stores short text entries
in a Firestore collection, and builds a 24-hour digest.

Modelling conventions:
- Time is in nanoseconds (`Nat`), matching Go's `time.Duration` unit.
  `Duration.Hours()`/`Duration.Minutes()` return `float64`; for every
  integer-nanosecond duration in the handler's range the exact rational value
  of these quotients decides all comparisons and floors performed by the code
  (the nearest `float64` never crosses an integer boundary there), so the
  floors and the `>= 24` test are embedded as exact `Nat` division.
- The Firestore collection is a `List Doc`.  A query with an equality filter
  is `List.filter`; `Delete` by a (unique) document reference is removal of
  the matching expired documents; `Add` appends a document whose
  `createTime` is the server-assigned creation timestamp.
- Go strings are `String`; `strings.Split s " "` / `strings.Join _ " "` /
  `strings.HasPrefix` are embedded as `splitSpace` / `joinSpace` /
  `startsList` over `String.data`.
- `sendMessage` calls are collected in a `List Sent`; the pure model has no
  datastore or transport failures, so each handler's sends are total.
-/

/-- Nanoseconds in one minute (`time.Minute`). -/
def nsPerMin : Nat := 60000000000

/-- Nanoseconds in one hour (`time.Hour`). -/
def nsPerHour : Nat := 3600000000000

/-- A Telegram Chat, from `handler.go`. -/
structure Chat where
  id : Int
deriving Repr, DecidableEq

/-- A Telegram Message, from `handler.go`. -/
structure Message where
  text : String
  chat : Chat
deriving Repr, DecidableEq

/-- A Telegram Update, from `handler.go`. -/
structure Update where
  updateId : Int
  message : Message
deriving Repr, DecidableEq

/-- A document of the "summary" collection: the stored `SummaryItem` fields
(`ChatID`, `Message`) together with the server-assigned creation timestamp.
`chatID` is `none` for legacy documents written without the field. -/
structure Doc where
  chatID : Option Int
  message : String
  createTime : Nat
deriving Repr, DecidableEq

/-- One `sendMessage(chatID, text, token)` call (the token does not affect
which message is sent). -/
structure Sent where
  chatID : Int
  text : String
deriving Repr, DecidableEq

/-- Prepends a character to the first field of a split result. -/
def consHead (c : Char) : List (List Char) → List (List Char)
  | [] => [[c]]
  | t :: ts => (c :: t) :: ts

/-- Embedding of Go `strings.Split s " "` on the character list: splits at
every single space, keeping empty fields. -/
def splitSpace : List Char → List (List Char)
  | [] => [[]]
  | c :: cs =>
    if c = ' ' then [] :: splitSpace cs
    else consHead c (splitSpace cs)

/-- Embedding of Go `strings.Join fields " "`. -/
def joinSpace : List (List Char) → List Char
  | [] => []
  | [t] => t
  | t :: ts => t ++ ' ' :: joinSpace ts

/-- Embedding of Go `strings.HasPrefix s p` : `startsList p.data s.data`. -/
def startsList : List Char → List Char → Bool
  | [], _ => true
  | _ :: _, [] => false
  | a :: as, b :: bs => a == b && startsList as bs

/-- Version of `startsList` on `String`s: `strings.HasPrefix s p`. -/
def strStartsWith (s p : String) : Bool := startsList p.data s.data

/-- Embedding of `makeTimeAgoString` from `handler.go`.
`hoursAgo = Floor(d.Hours())`, `minutesAgo = Floor(Mod(d.Minutes(), 60))`;
for a nonnegative integer-nanosecond duration these are `d / nsPerHour` and
`(d / nsPerMin) % 60`. -/
def makeTimeAgoString (timeAgo : Nat) : String :=
  let hoursAgo := timeAgo / nsPerHour
  let minutesAgo := (timeAgo / nsPerMin) % 60
  if hoursAgo = 0 then
    toString minutesAgo ++ "min"
  else
    toString hoursAgo ++ "h" ++ toString minutesAgo ++ "min"

/-- The query filter `Where("ChatID", "==", chatID)`: a document matches when
its `ChatID` field is present and equal. -/
def matchesChat (chatID : Int) (d : Doc) : Bool := d.chatID == some chatID

/-- The expiry test `doc.ReadTime.Sub(doc.CreateTime).Hours() >= 24`,
at query read time `t`. -/
def isExpired (t : Nat) (d : Doc) : Bool := 24 * nsPerHour ≤ t - d.createTime

/-- Insertion of a document into a list sorted ascending by `CreateTime`
(`ByCreatedDate.Less`). -/
def insertByCreate (d : Doc) : List Doc → List Doc
  | [] => [d]
  | e :: es =>
    if d.createTime ≤ e.createTime then d :: e :: es
    else e :: insertByCreate d es

/-- Embedding of `sort.Sort(ByCreatedDate(docs))`: sorting ascending by `CreateTime`.
(`sort.Sort` is comparison-based and unstable; any order among equal
`CreateTime`s is admissible, and this embedding fixes one.) -/
def sortByCreate : List Doc → List Doc
  | [] => []
  | d :: ds => insertByCreate d (sortByCreate ds)

/-- The documents that survive into the digest body of `handleResumo`:
the query results for the conversation, minus the expired ones, sorted
ascending by creation time. -/
def resumoDocs (chatID : Int) (t : Nat) (store : List Doc) : List Doc :=
  sortByCreate (((store.filter (matchesChat chatID)).filter
    (fun d => ! isExpired t d)))

/-- One digest line: `fmt.Sprintf("[H?? %v] %v", makeTimeAgoString(timeAgo), item.Message)`. -/
def fmtLine (t : Nat) (d : Doc) : String :=
  "[H?? " ++ makeTimeAgoString (t - d.createTime) ++ "] " ++ d.message

/-- Embedding of `handleResumo` from `handler.go`: queries the conversation's documents at
read time `t`, deletes the expired ones, and sends the formatted digest.
Returns the store after the deletions and the `sendMessage` calls made. -/
def handleResumo (chatID : Int) (t : Nat) (store : List Doc) :
    List Doc × List Sent :=
  let docs := resumoDocs chatID t store
  let newStore := store.filter (fun d => ! (matchesChat chatID d && isExpired t d))
  let resumo := String.intercalate "\n" (docs.map (fmtLine t))
  (newStore, [⟨chatID, "Resumo: \n\n" ++ resumo⟩])

/-- Embedding of `handleAddResumo` from `handler.go`: splits the command text on spaces;
with no remaining tokens it sends the rejection reply, otherwise it appends a
new document (server creation time `tNew`) and sends the confirmation. -/
def handleAddResumo (chatID : Int) (message : String) (tNew : Nat)
    (store : List Doc) : List Doc × List Sent :=
  let split := splitSpace message.data
  if split.length = 1 then
    (store, [⟨chatID, "Safado! Cad?? a mensagem pra adicionar no resumo?"⟩])
  else
    let newEntry := String.mk (joinSpace (split.drop 1))
    (store ++ [⟨some chatID, newEntry, tNew⟩],
     [⟨chatID, "Adicionado ao resumo: " ++ newEntry⟩])

/-- Embedding of `handleHello` from `handler.go`. -/
def handleHello (chatID : Int) : List Sent := [⟨chatID, "hello!"⟩]

/-- Embedding of `handleSafada` from `handler.go`. -/
def handleSafada (chatID : Int) : List Sent := [⟨chatID, "?? voc??!"⟩]

/-- Embedding of `HandleMessage` from `handler.go`.  `body = none` models a request whose
JSON body failed to decode; `configOk = false` models a failure while
decoding/parsing the configuration (or creating the Firestore client), all of
which abort before routing.  `t` is the query read time of a digest request
and `tNew` the server creation time of an appended document.  Returns the
resulting store and the `sendMessage` calls made. -/
def HandleMessage (body : Option Update) (configOk : Bool) (t tNew : Nat)
    (store : List Doc) : List Doc × List Sent :=
  match body with
  | none => (store, [])
  | some u =>
    if !configOk then (store, [])
    else if strStartsWith u.message.text "/hello" then
      (store, handleHello u.message.chat.id)
    else if strStartsWith u.message.text "/safada" then
      (store, handleSafada u.message.chat.id)
    else if strStartsWith u.message.text "/resumo" then
      handleResumo u.message.chat.id t store
    else if strStartsWith u.message.text "/r" then
      handleAddResumo u.message.chat.id u.message.text tNew store
    else (store, [])

/-- The router's overall match condition: some command prefix fires. -/
def matchesAny (text : String) : Bool :=
  strStartsWith text "/hello" || strStartsWith text "/safada" ||
  strStartsWith text "/resumo" || strStartsWith text "/r"

/-- A split result is never the empty list of fields. -/
theorem consHead_ne_nil (c : Char) (l : List (List Char)) : consHead c l ≠ [] := by
  cases l <;> simp [consHead]

/-- splitSpace always returns at least one field. -/
theorem splitSpace_ne_nil (l : List Char) : splitSpace l ≠ [] := by
  induction l with
  | nil => simp [splitSpace]
  | cons c cs ih =>
    rw [splitSpace]
    by_cases hc : c = ' '
    · simp [hc]
    · simpa [hc] using consHead_ne_nil c (splitSpace cs)

/-- consHead preserves the number of fields of a nonempty split. -/
theorem length_consHead (c : Char) (l : List (List Char)) (h : l ≠ []) :
    (consHead c l).length = l.length := by
  cases l with
  | nil => exact absurd rfl h
  | cons t ts => simp [consHead]

/-- A string splits into a single field exactly when it has no space. -/
theorem splitSpace_length_one (l : List Char) :
    (splitSpace l).length = 1 ↔ ' ' ∉ l := by
  induction l with
  | nil => simp [splitSpace]
  | cons c cs ih =>
    rw [splitSpace]
    by_cases hc : c = ' '
    · subst hc
      rw [if_pos rfl]
      simp only [List.length_cons]
      constructor
      · intro h
        have h0 : (splitSpace cs).length = 0 := by omega
        exact absurd (List.length_eq_zero.mp h0) (splitSpace_ne_nil cs)
      · intro h
        exact absurd (List.mem_cons_self ' ' cs) h
    · rw [if_neg hc, length_consHead c _ (splitSpace_ne_nil cs)]
      rw [ih]
      constructor
      · intro h hm
        rcases List.mem_cons.mp hm with h1 | h1
        · exact hc h1.symm
        · exact h h1
      · intro h hm
        exact h (List.mem_cons_of_mem c hm)

/-- joinSpace on a split with at least two fields puts the space back. -/
theorem joinSpace_cons_cons (t : List Char) (ts : List (List Char)) (h : ts ≠ []) :
    joinSpace (t :: ts) = t ++ ' ' :: joinSpace ts := by
  cases ts with
  | nil => exact absurd rfl h
  | cons u us => rfl

/-- joinSpace after consHead prepends the character. -/
theorem joinSpace_consHead (c : Char) (l : List (List Char)) (h : l ≠ []) :
    joinSpace (consHead c l) = c :: joinSpace l := by
  cases l with
  | nil => exact absurd rfl h
  | cons t ts =>
    cases ts with
    | nil => rfl
    | cons u us => rfl

/-- Joining the fields of a split reproduces the original string:
strings.Join(strings.Split(s, " "), " ") == s. -/
theorem joinSpace_splitSpace (l : List Char) : joinSpace (splitSpace l) = l := by
  induction l with
  | nil => rfl
  | cons c cs ih =>
    rw [splitSpace]
    by_cases hc : c = ' '
    · rw [if_pos hc, joinSpace_cons_cons [] _ (splitSpace_ne_nil cs)]
      simp [hc, ih]
    · rw [if_neg hc, joinSpace_consHead c _ (splitSpace_ne_nil cs), ih]

/-- Splitting a string whose first field has no space: the first field comes
off and the rest splits on its own. -/
theorem splitSpace_append (a b : List Char) (ha : ' ' ∉ a) :
    splitSpace (a ++ ' ' :: b) = a :: splitSpace b := by
  induction a with
  | nil => simp [splitSpace]
  | cons x xs ih =>
    have hx : x ≠ ' ' := fun h => ha (h ▸ List.mem_cons_self x xs)
    have hxs : ' ' ∉ xs := fun h => ha (List.mem_cons_of_mem x h)
    rw [List.cons_append, splitSpace, if_neg hx, ih hxs]
    rfl

/-- C5: for every nonnegative elapsed duration below 24 hours, the annotation
renders as <minutes>min (minutes floored, no hour component) when the
elapsed time is under 60 minutes, and otherwise as <hours>h<minutes>min
where hours is the elapsed time floored to whole hours and minutes is the
remainder floored to a value in 0..59. -/
theorem timeAgo_spec (d : Nat) (hd : d < 24 * nsPerHour) :
    (d < 60 * nsPerMin → makeTimeAgoString d = toString (d / nsPerMin) ++ "min") ∧
    (60 * nsPerMin ≤ d →
      makeTimeAgoString d =
        toString (d / nsPerHour) ++ "h" ++ toString (d % nsPerHour / nsPerMin) ++ "min" ∧
      d % nsPerHour / nsPerMin ≤ 59) := by
  have e1 : nsPerMin = 60000000000 := rfl
  have e2 : nsPerHour = 3600000000000 := rfl
  constructor
  · intro h
    simp only [makeTimeAgoString, e1, e2] at *
    have h0 : d / 3600000000000 = 0 := by omega
    have h1 : d / 60000000000 % 60 = d / 60000000000 := by omega
    rw [h0, if_pos rfl, h1]
  · intro h
    simp only [makeTimeAgoString, e1, e2] at *
    have h0 : ¬ (d / 3600000000000 = 0) := by omega
    have h1 : d / 60000000000 % 60 = d % 3600000000000 / 60000000000 := by omega
    rw [if_neg h0, h1]
    exact ⟨rfl, by omega⟩

/-- Witness for C5 at 45 minutes and at 90 minutes. -/
theorem timeAgo_spec_witness :
    (45 * nsPerMin < 24 * nsPerHour ∧ makeTimeAgoString (45 * nsPerMin) = "45min") ∧
    (90 * nsPerMin < 24 * nsPerHour ∧ makeTimeAgoString (90 * nsPerMin) = "1h30min") := by
  refine ⟨⟨by decide, ?_⟩, ⟨by decide, ?_⟩⟩
  · rw [(timeAgo_spec (45 * nsPerMin) (by decide)).1 (by decide)]
    decide
  · rw [((timeAgo_spec (90 * nsPerMin) (by decide)).2 (by decide)).1]
    decide

/-- C7: an append command that is the trigger alone, with no remaining
tokens, gets the rejection reply and leaves the datastore unchanged. -/
theorem addResumo_trigger_alone (chatID : Int) (message : String) (tNew : Nat)
    (store : List Doc) (h : (splitSpace message.data).length = 1) :
    handleAddResumo chatID message tNew store =
      (store, [⟨chatID, "Safado! Cad?? a mensagem pra adicionar no resumo?"⟩]) := by
  simp only [handleAddResumo, if_pos h]

/-- Witness for C7 at the bare command "/r". -/
theorem addResumo_trigger_alone_witness :
    (splitSpace "/r".data).length = 1 ∧
    handleAddResumo 5 "/r" 0 [] =
      ([], [⟨5, "Safado! Cad?? a mensagem pra adicionar no resumo?"⟩]) :=
  ⟨by decide, addResumo_trigger_alone 5 "/r" 0 [] (by decide)⟩

/-- C6: a non-rejected append command splits on spaces, drops the trigger
token, rejoins the rest with single spaces as the stored text, appends one
entry for the requesting conversation with that text, and the confirmation
reply echoes exactly the stored text.  When the command is a space-free
trigger followed by a space and a remainder, the stored text is exactly that
remainder. -/
theorem addResumo_append_echo (chatID : Int) (message : String) (tNew : Nat)
    (store : List Doc) (h : (splitSpace message.data).length ≠ 1) :
    ∃ e : Doc,
      handleAddResumo chatID message tNew store =
        (store ++ [e], [⟨chatID, "Adicionado ao resumo: " ++ e.message⟩]) ∧
      e.chatID = some chatID ∧ e.createTime = tNew ∧
      e.message = String.mk (joinSpace ((splitSpace message.data).drop 1)) ∧
      ∀ trigger rest : List Char, ' ' ∉ trigger →
        message.data = trigger ++ ' ' :: rest → e.message = String.mk rest := by
  refine ⟨⟨some chatID, String.mk (joinSpace ((splitSpace message.data).drop 1)),
    tNew⟩, ?_, rfl, rfl, rfl, ?_⟩
  · simp only [handleAddResumo, if_neg h]
  · intro trigger rest htr hmsg
    simp only [hmsg, splitSpace_append trigger rest htr, List.drop_succ_cons,
      List.drop_zero, joinSpace_splitSpace]

/-- Witness for C6 at "/r buy milk". -/
theorem addResumo_append_echo_witness :
    (splitSpace "/r buy milk".data).length ≠ 1 ∧
    ∃ e : Doc,
      handleAddResumo 7 "/r buy milk" 3 [] =
        ([] ++ [e], [⟨7, "Adicionado ao resumo: " ++ e.message⟩]) ∧
      e.chatID = some 7 ∧ e.createTime = 3 ∧
      e.message = String.mk (joinSpace ((splitSpace "/r buy milk".data).drop 1)) ∧
      ∀ trigger rest : List Char, ' ' ∉ trigger →
        "/r buy milk".data = trigger ++ ' ' :: rest → e.message = String.mk rest :=
  ⟨by decide, addResumo_append_echo 7 "/r buy milk" 3 [] (by decide)⟩

/-- C9: the append handler rejects exactly when the command text contains no
space character at all; with any space present (even a trailing space after
the bare trigger) it appends one entry, whose stored text may be empty or
all spaces, and sends the confirmation echoing that text. -/
theorem addResumo_reject_iff_no_space (chatID : Int) (message : String)
    (tNew : Nat) (store : List Doc) :
    ((splitSpace message.data).length = 1 ↔ ' ' ∉ message.data) ∧
    (' ' ∉ message.data →
      handleAddResumo chatID message tNew store =
        (store, [⟨chatID, "Safado! Cad?? a mensagem pra adicionar no resumo?"⟩])) ∧
    (' ' ∈ message.data → ∃ e : Doc,
      handleAddResumo chatID message tNew store =
        (store ++ [e], [⟨chatID, "Adicionado ao resumo: " ++ e.message⟩]) ∧
      e.message = String.mk (joinSpace ((splitSpace message.data).drop 1))) := by
  refine ⟨splitSpace_length_one message.data, ?_, ?_⟩
  · intro h
    simp only [handleAddResumo, if_pos ((splitSpace_length_one message.data).mpr h)]
  · intro h
    have hne : (splitSpace message.data).length ≠ 1 :=
      fun h1 => ((splitSpace_length_one message.data).mp h1) h
    refine ⟨⟨some chatID, String.mk (joinSpace ((splitSpace message.data).drop 1)),
      tNew⟩, ?_, rfl⟩
    simp only [handleAddResumo, if_neg hne]

/-- Witness for C9 at "/r " (trigger plus a single trailing space). -/
theorem addResumo_reject_iff_no_space_witness :
    ' ' ∈ "/r ".data ∧ ∃ e : Doc,
      handleAddResumo 5 "/r " 2 [] =
        ([] ++ [e], [⟨5, "Adicionado ao resumo: " ++ e.message⟩]) ∧
      e.message = String.mk (joinSpace ((splitSpace "/r ".data).drop 1)) :=
  ⟨by decide, (addResumo_reject_iff_no_space 5 "/r " 2 []).2.2 (by decide)⟩

/-- Membership in an insertion: the inserted document or an original one. -/
theorem mem_insertByCreate {x d : Doc} {l : List Doc} :
    x ∈ insertByCreate d l ↔ x = d ∨ x ∈ l := by
  induction l with
  | nil => simp [insertByCreate]
  | cons e es ih =>
    rw [insertByCreate]
    by_cases hle : d.createTime ≤ e.createTime
    · rw [if_pos hle]
      simp [or_comm, or_left_comm]
    · rw [if_neg hle]
      simp only [List.mem_cons, ih]
      tauto

/-- Sorting does not change which documents are present. -/
theorem mem_sortByCreate {x : Doc} {l : List Doc} :
    x ∈ sortByCreate l ↔ x ∈ l := by
  induction l with
  | nil => simp [sortByCreate]
  | cons d ds ih =>
    rw [sortByCreate, mem_insertByCreate]
    simp [ih]

/-- Insertion preserves ascending order by creation time. -/
theorem pairwise_insertByCreate (d : Doc) (l : List Doc)
    (h : l.Pairwise (fun a b => a.createTime ≤ b.createTime)) :
    (insertByCreate d l).Pairwise (fun a b => a.createTime ≤ b.createTime) := by
  induction l with
  | nil => simp [insertByCreate]
  | cons e es ih =>
    rcases List.pairwise_cons.mp h with ⟨he, hes⟩
    rw [insertByCreate]
    by_cases hle : d.createTime ≤ e.createTime
    · rw [if_pos hle]
      refine List.pairwise_cons.mpr ⟨?_, h⟩
      intro x hx
      rcases List.mem_cons.mp hx with rfl | hx
      · exact hle
      · exact le_trans hle (he x hx)
    · rw [if_neg hle]
      refine List.pairwise_cons.mpr ⟨?_, ih hes⟩
      intro x hx
      rcases mem_insertByCreate.mp hx with rfl | hx
      · exact le_of_not_le hle
      · exact he x hx

/-- The sorted document list is ascending by creation time. -/
theorem pairwise_sortByCreate (l : List Doc) :
    (sortByCreate l).Pairwise (fun a b => a.createTime ≤ b.createTime) := by
  induction l with
  | nil => simp [sortByCreate]
  | cons d ds ih => exact pairwise_insertByCreate d _ ih

/-- Store left by a digest request, as a filter. -/
theorem handleResumo_fst (chatID : Int) (t : Nat) (store : List Doc) :
    (handleResumo chatID t store).1 =
      store.filter (fun d => ! (matchesChat chatID d && isExpired t d)) := rfl

/-- Reply sent by a digest request. -/
theorem handleResumo_snd (chatID : Int) (t : Nat) (store : List Doc) :
    (handleResumo chatID t store).2 =
      [⟨chatID, "Resumo: \n\n" ++ String.intercalate "\n"
        ((resumoDocs chatID t store).map (fmtLine t))⟩] := rfl

/-- Membership in the digest body, unfolded. -/
theorem mem_resumoDocs {chatID : Int} {t : Nat} {store : List Doc} {d : Doc} :
    d ∈ resumoDocs chatID t store ↔
      d ∈ store ∧ d.chatID = some chatID ∧ ¬ (24 * nsPerHour ≤ t - d.createTime) := by
  rw [resumoDocs, mem_sortByCreate, List.mem_filter, List.mem_filter]
  simp [matchesChat, isExpired, and_assoc]

/-- C1: every entry included in the digest built for conversation `chatID`
comes from the store and carries exactly that conversation id; an entry of
any other conversation never appears. -/
theorem digest_scoped (chatID : Int) (t : Nat) (store : List Doc) (d : Doc)
    (h : d ∈ resumoDocs chatID t store) :
    d ∈ store ∧ d.chatID = some chatID :=
  ⟨(mem_resumoDocs.mp h).1, (mem_resumoDocs.mp h).2.1⟩

/-- Witness for C1: a fresh entry of conversation 5 in a store that also
holds an entry of conversation 6. -/
theorem digest_scoped_witness :
    (⟨some 5, "x", 0⟩ : Doc) ∈
      resumoDocs 5 0 [⟨some 5, "x", 0⟩, ⟨some 6, "y", 0⟩] ∧
    ((⟨some 5, "x", 0⟩ : Doc) ∈
        [(⟨some 5, "x", 0⟩ : Doc), ⟨some 6, "y", 0⟩] ∧
      (⟨some 5, "x", 0⟩ : Doc).chatID = some 5) :=
  ⟨by decide, digest_scoped 5 0 [⟨some 5, "x", 0⟩, ⟨some 6, "y", 0⟩]
    ⟨some 5, "x", 0⟩ (by decide)⟩

/-- C2: an entry of the requesting conversation whose elapsed age is at least
24 hours (the boundary included) is deleted from the store and excluded from
the digest; one whose elapsed age is strictly below 24 hours is kept. -/
theorem digest_expiry (chatID : Int) (t : Nat) (store : List Doc) (d : Doc)
    (hmem : d ∈ store) (hchat : d.chatID = some chatID) :
    (24 * nsPerHour ≤ t - d.createTime →
      d ∉ (handleResumo chatID t store).1 ∧ d ∉ resumoDocs chatID t store) ∧
    (t - d.createTime < 24 * nsPerHour → d ∈ (handleResumo chatID t store).1) := by
  constructor
  · intro hexp
    constructor
    · rw [handleResumo_fst]
      intro hin
      rcases List.mem_filter.mp hin with ⟨-, hb⟩
      simp [matchesChat, isExpired, hchat, hexp] at hb
    · intro hin
      exact absurd hexp (mem_resumoDocs.mp hin).2.2
  · intro hlt
    rw [handleResumo_fst]
    refine List.mem_filter.mpr ⟨hmem, ?_⟩
    simp [matchesChat, isExpired, hchat, Nat.not_le.mpr hlt]

/-- Witness for C2 exactly at the 24-hour boundary. -/
theorem digest_expiry_witness :
    (⟨some 1, "old", 0⟩ : Doc) ∈ [(⟨some 1, "old", 0⟩ : Doc)] ∧
    (⟨some 1, "old", 0⟩ : Doc).chatID = some 1 ∧
    24 * nsPerHour ≤ 24 * nsPerHour - (⟨some 1, "old", 0⟩ : Doc).createTime ∧
    ((⟨some 1, "old", 0⟩ : Doc) ∉
        (handleResumo 1 (24 * nsPerHour) [⟨some 1, "old", 0⟩]).1 ∧
      (⟨some 1, "old", 0⟩ : Doc) ∉
        resumoDocs 1 (24 * nsPerHour) [⟨some 1, "old", 0⟩]) :=
  ⟨by decide, rfl, by decide,
    (digest_expiry 1 (24 * nsPerHour) [⟨some 1, "old", 0⟩] ⟨some 1, "old", 0⟩
      (by decide) rfl).1 (by decide)⟩

/-- C10: a digest request for conversation `chatID` removes a stored entry
exactly when that entry belongs to `chatID` and its elapsed age is at least
24 hours; entries of other conversations and legacy entries with no
conversation id are left in place. -/
theorem digest_frame (chatID : Int) (t : Nat) (store : List Doc) (d : Doc)
    (hmem : d ∈ store) :
    d ∉ (handleResumo chatID t store).1 ↔
      d.chatID = some chatID ∧ 24 * nsPerHour ≤ t - d.createTime := by
  have key : (!(matchesChat chatID d && isExpired t d)) = false ↔
      d.chatID = some chatID ∧ 24 * nsPerHour ≤ t - d.createTime := by
    simp [matchesChat, isExpired]
  rw [handleResumo_fst, List.mem_filter]
  constructor
  · intro hnin
    rcases Bool.eq_false_or_eq_true (!(matchesChat chatID d && isExpired t d)) with
      hb | hb
    · exact absurd ⟨hmem, hb⟩ hnin
    · exact key.mp hb
  · rintro ⟨h1, h2⟩ ⟨-, hb⟩
    rw [key.mpr ⟨h1, h2⟩] at hb
    cases hb

/-- Witness for C10: a hundred-hour-old legacy entry with no conversation id
survives a digest request of conversation 1. -/
theorem digest_frame_witness :
    (⟨none, "legacy", 0⟩ : Doc) ∈ [(⟨none, "legacy", 0⟩ : Doc)] ∧
    (⟨none, "legacy", 0⟩ : Doc) ∈
      (handleResumo 1 (100 * nsPerHour) [⟨none, "legacy", 0⟩]).1 := by
  refine ⟨by decide, ?_⟩
  have h := digest_frame 1 (100 * nsPerHour) [⟨none, "legacy", 0⟩]
    ⟨none, "legacy", 0⟩ (by decide)
  by_contra hnin
  exact absurd (h.mp hnin).1 (by decide)

/-- Auxiliary string computation: the digest header with an empty body. -/
theorem header_empty_body :
    ("Resumo: \n\n" ++ String.intercalate "\n" ([] : List String)) =
      "Resumo: \n\n" := by decide

/-- C4: the digest reply is the fixed header followed by the surviving
entries' lines joined with single newlines (no trailing newline); the entries
appear in ascending creation-time order; with zero surviving entries the
reply is the header alone and is still sent. -/
theorem digest_format (chatID : Int) (t : Nat) (store : List Doc) :
    (handleResumo chatID t store).2 =
      [⟨chatID, "Resumo: \n\n" ++ String.intercalate "\n"
        ((resumoDocs chatID t store).map (fmtLine t))⟩] ∧
    (resumoDocs chatID t store).Pairwise
      (fun a b => a.createTime ≤ b.createTime) ∧
    (resumoDocs chatID t store = [] →
      (handleResumo chatID t store).2 = [⟨chatID, "Resumo: \n\n"⟩]) := by
  refine ⟨handleResumo_snd chatID t store, pairwise_sortByCreate _, ?_⟩
  intro h
  rw [handleResumo_snd, h, List.map_nil, header_empty_body]

/-- Witness for C4 with an empty store: the header alone is sent. -/
theorem digest_format_witness :
    resumoDocs 1 0 ([] : List Doc) = [] ∧
    (handleResumo 1 0 []).2 = [⟨1, "Resumo: \n\n"⟩] :=
  ⟨by decide, (digest_format 1 0 []).2.2 (by decide)⟩

/-- Length of the sends of an append command: always exactly one. -/
theorem handleAddResumo_snd_length (chatID : Int) (message : String)
    (tNew : Nat) (store : List Doc) :
    (handleAddResumo chatID message tNew store).2.length = 1 := by
  by_cases h : (splitSpace message.data).length = 1
  · simp only [handleAddResumo, if_pos h]
    rfl
  · simp only [handleAddResumo, if_neg h]
    rfl

/-- Reduction of the router on a decoded body with a good configuration. -/
theorem HandleMessage_some_true (u : Update) (t tNew : Nat) (store : List Doc) :
    HandleMessage (some u) true t tNew store =
      if strStartsWith u.message.text "/hello" = true then
        (store, handleHello u.message.chat.id)
      else if strStartsWith u.message.text "/safada" = true then
        (store, handleSafada u.message.chat.id)
      else if strStartsWith u.message.text "/resumo" = true then
        handleResumo u.message.chat.id t store
      else if strStartsWith u.message.text "/r" = true then
        handleAddResumo u.message.chat.id u.message.text tNew store
      else (store, []) := rfl

/-- Two prefixes of the same string are nested: the shorter one is a prefix
of the longer one. -/
theorem startsList_nested (a : List Char) :
    ∀ b l : List Char, startsList a l = true → startsList b l = true →
      a.length ≤ b.length → startsList a b = true := by
  induction a with
  | nil =>
    intro b l _ _ _
    rfl
  | cons x xs ih =>
    intro b l ha hb hlen
    cases l with
    | nil => exact absurd ha (by simp [startsList])
    | cons y ys =>
      simp only [startsList, Bool.and_eq_true, beq_iff_eq] at ha
      cases b with
      | nil => simp at hlen
      | cons z zs =>
        simp only [startsList, Bool.and_eq_true, beq_iff_eq] at hb
        simp only [startsList, Bool.and_eq_true, beq_iff_eq]
        exact ⟨ha.1.trans hb.1.symm, ih zs ys ha.2 hb.2 (by simpa using hlen)⟩

/-- C3: routing is by literal prefix in the fixed order /hello, /safada,
/resumo, /r, and at most one handler runs; any text beginning with "/resumo"
invokes the digest handler and never the append handler, and text matching
no prefix invokes no handler and sends no reply. -/
theorem routing_priority (u : Update) (t tNew : Nat) (store : List Doc) :
    (strStartsWith u.message.text "/resumo" = true →
      HandleMessage (some u) true t tNew store =
        handleResumo u.message.chat.id t store) ∧
    (strStartsWith u.message.text "/hello" = false →
      strStartsWith u.message.text "/safada" = false →
      strStartsWith u.message.text "/resumo" = false →
      strStartsWith u.message.text "/r" = false →
      HandleMessage (some u) true t tNew store = (store, [])) := by
  constructor
  · intro hres
    have hh : strStartsWith u.message.text "/hello" = false := by
      cases hb : strStartsWith u.message.text "/hello" with
      | false => rfl
      | true =>
        exact absurd (startsList_nested _ _ _ hb hres (by decide)) (by decide)
    have hs : strStartsWith u.message.text "/safada" = false := by
      cases hb : strStartsWith u.message.text "/safada" with
      | false => rfl
      | true =>
        exact absurd (startsList_nested _ _ _ hb hres (by decide)) (by decide)
    rw [HandleMessage_some_true, if_neg (by simp [hh]), if_neg (by simp [hs]),
      if_pos hres]
  · intro hh hs hres hr
    rw [HandleMessage_some_true, if_neg (by simp [hh]), if_neg (by simp [hs]),
      if_neg (by simp [hres]), if_neg (by simp [hr])]

/-- Witness for C3 at the message "/resumoXYZ". -/
theorem routing_priority_witness :
    strStartsWith "/resumoXYZ" "/resumo" = true ∧
    HandleMessage (some ⟨1, ⟨"/resumoXYZ", ⟨9⟩⟩⟩) true 0 0 [] =
      handleResumo 9 0 [] :=
  ⟨by decide, (routing_priority ⟨1, ⟨"/resumoXYZ", ⟨9⟩⟩⟩ 0 0 []).1 (by decide)⟩

/-- C8 counterexample: a request whose body decodes successfully but whose
text "oi" matches no command prefix produces zero Notifier calls, although
the claim allows zero calls only on decode or configuration failure. -/
theorem notifier_once_counterexample :
    ¬ ((HandleMessage (some ⟨1, ⟨"oi", ⟨5⟩⟩⟩) true 0 0 []).2.length = 1) := by
  decide

/-- C8 (amended): the handler calls the Notifier exactly once when the body
decodes, the configuration parses and some command prefix matches, and zero
times otherwise (decode or configuration failure, or no matching prefix). -/
theorem notifier_once (body : Option Update) (configOk : Bool) (t tNew : Nat)
    (store : List Doc) :
    (HandleMessage body configOk t tNew store).2.length =
      match body with
      | none => 0
      | some u => if configOk && matchesAny u.message.text then 1 else 0 := by
  cases body with
  | none => rfl
  | some u =>
    cases configOk with
    | false => rfl
    | true =>
      unfold HandleMessage matchesAny
      cases h1 : strStartsWith u.message.text "/hello" <;>
      cases h2 : strStartsWith u.message.text "/safada" <;>
      cases h3 : strStartsWith u.message.text "/resumo" <;>
      cases h4 : strStartsWith u.message.text "/r" <;>
        simp [h1, h2, h3, h4, handleHello, handleSafada, handleResumo_snd,
          handleAddResumo_snd_length]
